import Mathlib

/-!
# Threadly chat store — verification development

Shallow embedding of the Firestore-backed chat store of the Threadly
repository (`src/lib/firebase/firestore.ts` and
`src/contexts/ChatContext.tsx`), together with proofs about its
operations.

Modelling conventions:

* A Firestore `serverTimestamp()` is modelled as an explicit `now : Nat`
  parameter (ticks of a monotone server clock).
* `Timestamp.toMillis()` values observed by the client are modelled as
  `Int` milliseconds; a field holding a still-pending server timestamp
  (which the snapshot reports as `null`, so that `?.toMillis?.()` yields
  `undefined`) or a missing field is modelled as `none`.
* The `chats` collection is an association list from document id to
  document data; reads and writes performed by an operation are recorded
  in an explicit `DbOp` trace.
* A snapshot listener is embedded by its emission function: the pure
  function from the upstream snapshot (or upstream error) to the list
  handed to the caller's callback.
* JavaScript's `Array.prototype.sort` is a stable sort driven by the
  comparator; it is embedded as `List.insertionSort` (stable) with the
  corresponding relation.  The default string sort compares code units,
  embedded as the explicit lexicographic comparison `strLeP`.
-/

namespace Threadly

/-- Document data of a `chats/{chatId}` room document as written by
`createOrGetChat`: the sorted member list and the creation timestamp
(`serverTimestamp()` modelled as `Nat`). -/
structure ChatDoc where
  members : List String
  createdAt : Nat
deriving DecidableEq

/-- One database access performed by an operation on the `chats`
collection: a `getDoc` read or a `setDoc` write of a room document. -/
inductive DbOp where
  | read (id : String)
  | write (id : String) (doc : ChatDoc)
deriving DecidableEq

/-- The `chats` collection: an association list from document id to
document data (most recent insertion first). -/
abbrev ChatsDb := List (String × ChatDoc)

/-- Lexicographic comparison of character sequences: at the first
differing character the smaller code decides, and a prefix sorts before
its extensions.  This is JavaScript's default string comparator (which
compares code units; it agrees with this code-point comparison on all
strings of Basic-Multilingual-Plane characters, which user ids are).
Defined recursively so that it evaluates by kernel reduction. -/
def charsLe : List Char → List Char → Bool
  | [], _ => true
  | _ :: _, [] => false
  | a :: as, b :: bs => if a = b then charsLe as bs else decide (a.toNat < b.toNat)

/-- Lexicographic `≤` on strings, as a `Bool`. -/
def strLe (a b : String) : Bool :=
  charsLe a.data b.data

/-- Lexicographic `≤` on strings, as the ordering relation of the member
id sort. -/
def strLeP (a b : String) : Prop :=
  strLe a b = true

instance : DecidableRel strLeP := fun a b =>
  inferInstanceAs (Decidable (strLe a b = true))

/-- Embedding of `[...members].sort()` — JavaScript's default (lexicographic) sort of
the member id strings, embedded as a stable sort by `strLeP`. -/
def sortStrings (l : List String) : List String :=
  l.insertionSort strLeP

/-- Embedding of `createOrGetChat` (source: `firestore.ts`): validates that at least
two members are given, derives the chat id by sorting the member ids and
joining with `'_'`, reads the room document, and writes
`{ members: sortedMembers, createdAt: serverTimestamp() }` only when the
document is absent.  Returns the result (or the thrown validation
error), the updated collection, and the trace of database accesses. -/
def createOrGetChat (db : ChatsDb) (now : Nat) (members : List String) :
    Except String String × ChatsDb × List DbOp :=
  if members.length < 2 then
    (Except.error "Chat must have at least 2 members", db, [])
  else
    let sortedMembers := sortStrings members
    let chatId := String.intercalate "_" sortedMembers
    match db.lookup chatId with
    | some _ => (Except.ok chatId, db, [DbOp.read chatId])
    | none =>
        let docData : ChatDoc := { members := sortedMembers, createdAt := now }
        (Except.ok chatId, (chatId, docData) :: db,
          [DbOp.read chatId, DbOp.write chatId docData])

/-- A row of a `chats` query snapshot as consumed by `getUserChats`:
document id plus the fields of the `Chat` interface.  `lastMessageAt`
holds the `toMillis()` value when the timestamp is present and resolved,
`none` when the field is missing or still pending. -/
structure ChatRow where
  id : String
  members : List String
  lastMessage : Option String
  lastMessageAt : Option Int
  createdAt : Option Int
deriving DecidableEq

/-- The sort key `a.lastMessageAt?.toMillis?.() || 0` used by
`getUserChats`'s comparator (a missing or pending timestamp, like a zero
one, yields `0`). -/
def chatSortKey (c : ChatRow) : Int :=
  c.lastMessageAt.getD 0

/-- The ordering induced by the comparator `(a, b) => bTime - aTime`:
`a` may precede `b` exactly when `b`'s key is at most `a`'s key
(descending by `chatSortKey`). -/
def chatDescBefore (a b : ChatRow) : Prop :=
  chatSortKey b ≤ chatSortKey a

instance : DecidableRel chatDescBefore := fun a b =>
  inferInstanceAs (Decidable (chatSortKey b ≤ chatSortKey a))

instance : IsTotal ChatRow chatDescBefore :=
  ⟨fun a b => le_total (chatSortKey b) (chatSortKey a)⟩

instance : IsTrans ChatRow chatDescBefore :=
  ⟨fun _ _ _ hab hbc => le_trans hbc hab⟩

/-- Embedding of `chats.sort((a, b) => bTime - aTime)` in `getUserChats`: a stable
sort, descending by `chatSortKey`. -/
def sortChats (rows : List ChatRow) : List ChatRow :=
  rows.insertionSort chatDescBefore

/-- The emission function of the `getUserChats` listener: on a snapshot
it emits the rows sorted by `lastMessageAt` descending; on an upstream
error (the second `onSnapshot` argument) it emits the empty list to the
same callback. -/
def getUserChatsEmit (event : Except String (List ChatRow)) : List ChatRow :=
  match event with
  | Except.error _ => []
  | Except.ok rows => sortChats rows

/-- The `type` field of a message: `'text' | 'image' | 'file' | 'system'`. -/
inductive MsgType where
  | text
  | image
  | file
  | system
deriving DecidableEq

/-- The `MessageAttachment` interface. -/
structure MessageAttachment where
  url : String
  path : String
  type : String
  name : String
  size : Option Nat
deriving DecidableEq

/-- The `MessagePayload` interface: input to `sendMessage`; `type` and
`attachments` are optional. -/
structure MessagePayload where
  text : String
  senderId : String
  type : Option MsgType
  attachments : Option (List MessageAttachment)

/-- A message document of `chats/{chatId}/messages` together with its
document id (as reconstructed by the listeners via `doc.id`).  `readBy`
is the Firestore map field from user id to read timestamp. -/
structure MessageDoc where
  id : String
  text : String
  senderId : String
  type : MsgType
  attachments : List MessageAttachment
  readBy : String → Option Nat
  createdAt : Nat

/-- State of one room as touched by `sendMessage`: the denormalized
preview fields of the `chats/{chatId}` document and the `messages`
sub-collection (in insertion order). -/
structure RoomState where
  members : List String
  lastMessage : Option String
  lastMessageAt : Option Nat
  messages : List MessageDoc

/-- Embedding of `sendMessage` (source: `firestore.ts`): it `addDoc`s a message whose
`readBy` map holds exactly the sender with the current server timestamp,
then `updateDoc`s the parent room's `lastMessage`/`lastMessageAt`.
Returns the fresh document id (Firestore auto-id, modelled as a fresh
name) and the updated room. -/
def sendMessage (room : RoomState) (now : Nat) (p : MessagePayload) :
    String × RoomState :=
  let mid := "auto" ++ toString room.messages.length
  let messageData : MessageDoc :=
    { id := mid
      text := p.text
      senderId := p.senderId
      type := p.type.getD MsgType.text
      attachments := p.attachments.getD []
      readBy := fun u => if u = p.senderId then some now else none
      createdAt := now }
  (mid,
    { room with
        lastMessage := some p.text
        lastMessageAt := some now
        messages := room.messages ++ [messageData] })

/-- Embedding of `markMessageAsRead` (source: `firestore.ts`): the effect on the
referenced message document of
`updateDoc(messageRef, { [`readBy.${uid}`]: serverTimestamp() })` —
the map entry for `uid` is set to the current timestamp, everything
else is untouched. -/
def markMessageAsRead (m : MessageDoc) (uid : String) (now : Nat) :
    MessageDoc :=
  { m with readBy := fun u => if u = uid then some now else m.readBy u }

/-- The ordering of the query
`query(messagesRef, orderBy('createdAt', 'desc'), limitToLast(limit))`
before the limit is applied: `createdAt` descending, with Firestore's
implicit tie-break on the document name (also descending, because the
last explicit `orderBy` is descending). -/
def msgDescBefore (a b : MessageDoc) : Prop :=
  b.createdAt < a.createdAt ∨ (b.createdAt = a.createdAt ∧ b.id ≤ a.id)

instance : DecidableRel msgDescBefore := fun a b =>
  inferInstanceAs
    (Decidable (b.createdAt < a.createdAt ∨ (b.createdAt = a.createdAt ∧ b.id ≤ a.id)))

/-- Firestore's `limitToLast n` keeps the last `n` documents of the ordered result
set (Firestore: "only returns the last matching documents"). -/
def takeLast (n : Nat) (l : List α) : List α :=
  l.drop (l.length - n)

/-- The emission function of the `listenMessages` listener: the room's
messages ordered by `createdAt` descending, restricted by
`limitToLast messageLimit`, then reversed ("Reverse to show oldest
first") before being handed to the callback. -/
def listenMessagesEmit (msgs : List MessageDoc) (messageLimit : Nat) :
    List MessageDoc :=
  (takeLast messageLimit (msgs.insertionSort msgDescBefore)).reverse

/-- The default `messageLimit` of `listenMessages`. -/
def defaultMessageLimit : Nat := 50

/-- A document of the `chats/{chatId}/typing` sub-collection (written by
`setTyping`). -/
structure TypingDoc where
  uid : String
  timestamp : Nat
deriving DecidableEq

/-- The emission function of the `listenTyping` listener: the document
ids of the current typing snapshot. -/
def listenTypingEmit (snapshot : List (String × TypingDoc)) : List String :=
  snapshot.map Prod.fst

/-- The emission of the `useTyping` hook (source: `ChatContext.tsx`):
`users.filter((uid) => uid !== user.uid)` — the raw `listenTyping`
emission with the requesting user's id removed. -/
def useTypingEmit (userUid : String) (snapshot : List (String × TypingDoc)) :
    List String :=
  (listenTypingEmit snapshot).filter (fun uid => uid != userUid)

/-! ## Concrete documents used to evaluate the emission functions -/

/-- A plain text message with the given id and creation time. -/
def plainMsg (i : String) (t : Nat) : MessageDoc :=
  { id := i
    text := i
    senderId := "a1"
    type := MsgType.text
    attachments := []
    readBy := fun u => if u = "a1" then some t else none
    createdAt := t }

/-- A room with three messages, created at times 1, 2 and 3 — more
messages than a window of size 2. -/
def exampleRoomMsgs : List MessageDoc :=
  [plainMsg "m1" 1, plainMsg "m2" 2, plainMsg "m3" 3]

/-- A room row whose `lastMessageAt` field is missing. -/
def rowMissing : ChatRow :=
  { id := "x"
    members := ["a1", "b2"]
    lastMessage := none
    lastMessageAt := none
    createdAt := some 1 }

/-- A room row whose `lastMessageAt` is present and resolves to epoch
milliseconds `0`. -/
def rowZero : ChatRow :=
  { id := "y"
    members := ["a1", "c3"]
    lastMessage := some "hi"
    lastMessageAt := some 0
    createdAt := some 1 }

/-! ## Helper lemmas -/

theorem charsLe_total : ∀ as bs : List Char,
    charsLe as bs = true ∨ charsLe bs as = true
  | [], _ => Or.inl rfl
  | _ :: _, [] => Or.inr rfl
  | a :: as, b :: bs => by
      by_cases hab : a = b
      · subst hab
        simpa [charsLe] using charsLe_total as bs
      · have hba : ¬b = a := fun e => hab e.symm
        have hne : a.toNat ≠ b.toNat := fun e => hab (by
          have h := congrArg Char.ofNat e
          simpa [Char.ofNat_toNat] using h)
        simp only [charsLe, if_neg hab, if_neg hba, decide_eq_true_eq]
        omega

theorem charsLe_trans : ∀ as bs cs : List Char,
    charsLe as bs = true → charsLe bs cs = true → charsLe as cs = true
  | [], _, _, _, _ => rfl
  | _ :: _, [], _, h, _ => by simp [charsLe] at h
  | _ :: _, _ :: _, [], _, h => by simp [charsLe] at h
  | a :: as, b :: bs, c :: cs, h₁, h₂ => by
      by_cases hab : a = b
      · subst hab
        by_cases hbc : a = c
        · subst hbc
          simp only [charsLe, if_pos rfl] at h₁ h₂ ⊢
          exact charsLe_trans as bs cs h₁ h₂
        · simp only [charsLe, if_pos rfl, if_neg hbc] at h₂ ⊢
          exact h₂
      · by_cases hbc : b = c
        · subst hbc
          simp only [charsLe, if_neg hab] at h₁ ⊢
          exact h₁
        · simp only [charsLe, if_neg hab, if_neg hbc, decide_eq_true_eq] at h₁ h₂
          have hac : ¬a = c := fun e => by subst e; omega
          simp only [charsLe, if_neg hac, decide_eq_true_eq]
          omega

theorem charsLe_antisymm : ∀ as bs : List Char,
    charsLe as bs = true → charsLe bs as = true → as = bs
  | [], [], _, _ => rfl
  | [], _ :: _, _, h => by simp [charsLe] at h
  | _ :: _, [], h, _ => by simp [charsLe] at h
  | a :: as, b :: bs, h₁, h₂ => by
      by_cases hab : a = b
      · subst hab
        simp only [charsLe, if_pos rfl] at h₁ h₂
        rw [charsLe_antisymm as bs h₁ h₂]
      · have hba : ¬b = a := fun e => hab e.symm
        simp only [charsLe, if_neg hab, if_neg hba, decide_eq_true_eq] at h₁ h₂
        omega

instance : IsTotal String strLeP :=
  ⟨fun a b => charsLe_total a.data b.data⟩

instance : IsTrans String strLeP :=
  ⟨fun a b c => charsLe_trans a.data b.data c.data⟩

instance : IsAntisymm String strLeP :=
  ⟨fun a b h₁ h₂ => congrArg String.mk (charsLe_antisymm a.data b.data h₁ h₂)⟩

theorem sortStrings_perm (l : List String) : (sortStrings l).Perm l :=
  List.perm_insertionSort _ l

theorem sortStrings_sorted (l : List String) :
    (sortStrings l).Sorted strLeP :=
  List.sorted_insertionSort _ l

theorem sortStrings_eq_of_perm {l₁ l₂ : List String} (h : l₁.Perm l₂) :
    sortStrings l₁ = sortStrings l₂ :=
  List.eq_of_perm_of_sorted
    ((sortStrings_perm l₁).trans (h.trans (sortStrings_perm l₂).symm))
    (sortStrings_sorted l₁) (sortStrings_sorted l₂)

theorem createOrGetChat_of_found {db : ChatsDb} (now : Nat) {ms : List String}
    {d : ChatDoc} (h2 : 2 ≤ ms.length)
    (hdb : db.lookup (String.intercalate "_" (sortStrings ms)) = some d) :
    createOrGetChat db now ms =
      (Except.ok (String.intercalate "_" (sortStrings ms)), db,
        [DbOp.read (String.intercalate "_" (sortStrings ms))]) := by
  unfold createOrGetChat
  rw [if_neg (not_lt.mpr h2)]
  simp only [hdb]

theorem createOrGetChat_of_absent {db : ChatsDb} {now : Nat} {ms : List String}
    (h2 : 2 ≤ ms.length)
    (hdb : db.lookup (String.intercalate "_" (sortStrings ms)) = none) :
    createOrGetChat db now ms =
      (Except.ok (String.intercalate "_" (sortStrings ms)),
        (String.intercalate "_" (sortStrings ms),
          ({ members := sortStrings ms, createdAt := now } : ChatDoc)) :: db,
        [DbOp.read (String.intercalate "_" (sortStrings ms)),
          DbOp.write (String.intercalate "_" (sortStrings ms))
            { members := sortStrings ms, createdAt := now }]) := by
  unfold createOrGetChat
  rw [if_neg (not_lt.mpr h2)]
  simp only [hdb]

theorem createOrGetChat_of_short {db : ChatsDb} {now : Nat} {ms : List String}
    (h : ms.length < 2) :
    createOrGetChat db now ms =
      (Except.error "Chat must have at least 2 members", db, []) := by
  unfold createOrGetChat
  rw [if_pos h]

/-! ## Claim theorems -/

/-- C4: for every input list of member ids with fewer than two elements,
`createOrGetChat` fails synchronously with the validation error, the
`chats` collection is untouched, and no database read or write is
performed (the access trace is empty). -/
theorem createOrGetChat_rejects_short_member_list
    (db : ChatsDb) (now : Nat) (ms : List String) (h : ms.length < 2) :
    createOrGetChat db now ms =
      (Except.error "Chat must have at least 2 members", db, []) :=
  createOrGetChat_of_short h

/-- Witness for C4: `createOrGetChat` on the one-member list `["a1"]`
against the empty collection. -/
theorem createOrGetChat_rejects_short_member_list_witness :
    (["a1"] : List String).length < 2 ∧
      createOrGetChat [] 0 ["a1"] =
        (Except.error "Chat must have at least 2 members", [], []) :=
  ⟨by decide, createOrGetChat_rejects_short_member_list [] 0 ["a1"] (by decide)⟩

/-- C2: for every list of at least two member ids, `createOrGetChat`
returns the lexicographically sorted member ids joined with `'_'`, and
the returned id is identical for every permutation of the member list,
whatever the database state or time of the call. -/
theorem createOrGetChat_id_sorted_join
    (db db' : ChatsDb) (now now' : Nat) (ms ms' : List String)
    (h2 : 2 ≤ ms.length) (hp : ms'.Perm ms) :
    (createOrGetChat db now ms).1 =
        Except.ok (String.intercalate "_" (sortStrings ms)) ∧
      (createOrGetChat db' now' ms').1 = (createOrGetChat db now ms).1 := by
  have h2' : 2 ≤ ms'.length := by rw [hp.length_eq]; exact h2
  have hfst : ∀ (db₀ : ChatsDb) (now₀ : Nat) (ms₀ : List String),
      2 ≤ ms₀.length →
      (createOrGetChat db₀ now₀ ms₀).1 =
        Except.ok (String.intercalate "_" (sortStrings ms₀)) := by
    intro db₀ now₀ ms₀ h₀
    unfold createOrGetChat
    rw [if_neg (not_lt.mpr h₀)]
    dsimp only
    cases List.lookup (String.intercalate "_" (sortStrings ms₀)) db₀ <;> rfl
  refine ⟨hfst db now ms h2, ?_⟩
  rw [hfst db now ms h2, hfst db' now' ms' h2', sortStrings_eq_of_perm hp]

/-- Witness for C2: `createOrGetChat(["b2","a1"])` yields `"a1_b2"`, and
the permutation `["a1","b2"]` yields the same id. -/
theorem createOrGetChat_id_sorted_join_witness :
    (createOrGetChat [] 0 ["b2", "a1"]).1 =
        Except.ok (String.intercalate "_" (sortStrings ["b2", "a1"])) ∧
      (createOrGetChat [] 7 ["a1", "b2"]).1 = (createOrGetChat [] 0 ["b2", "a1"]).1 ∧
      String.intercalate "_" (sortStrings ["b2", "a1"]) = "a1_b2" := by
  refine ⟨(createOrGetChat_id_sorted_join [] [] 0 7 ["b2", "a1"] ["a1", "b2"]
      (by decide) (by decide)).1,
    (createOrGetChat_id_sorted_join [] [] 0 7 ["b2", "a1"] ["a1", "b2"]
      (by decide) (by decide)).2, by decide⟩

/-- C3: for any two permutations of the same member set (of at least two
ids), two successive `createOrGetChat` calls return the same room id,
and the second call leaves the collection untouched and performs exactly
one read — no write. -/
theorem createOrGetChat_idempotent
    (db : ChatsDb) (now₁ now₂ : Nat) (ms₁ ms₂ : List String)
    (hp : ms₂.Perm ms₁) (h2 : 2 ≤ ms₁.length) :
    ∃ id db₁ ops₁,
      createOrGetChat db now₁ ms₁ = (Except.ok id, db₁, ops₁) ∧
      createOrGetChat db₁ now₂ ms₂ = (Except.ok id, db₁, [DbOp.read id]) := by
  have h2' : 2 ≤ ms₂.length := by rw [hp.length_eq]; exact h2
  have hid : sortStrings ms₂ = sortStrings ms₁ := sortStrings_eq_of_perm hp
  cases hdb : db.lookup (String.intercalate "_" (sortStrings ms₁)) with
  | some d =>
      have hdb₂ : db.lookup (String.intercalate "_" (sortStrings ms₂)) = some d := by
        rw [hid]; exact hdb
      have h := createOrGetChat_of_found now₂ h2' hdb₂
      rw [hid] at h
      exact ⟨String.intercalate "_" (sortStrings ms₁), db,
        [DbOp.read (String.intercalate "_" (sortStrings ms₁))],
        createOrGetChat_of_found now₁ h2 hdb, h⟩
  | none =>
      have hlook :
          ((String.intercalate "_" (sortStrings ms₁),
              ({ members := sortStrings ms₁, createdAt := now₁ } : ChatDoc)) ::
            db).lookup (String.intercalate "_" (sortStrings ms₂)) =
            some { members := sortStrings ms₁, createdAt := now₁ } := by
        rw [hid]; simp [List.lookup]
      have h := createOrGetChat_of_found now₂ h2' hlook
      rw [hid] at h
      exact ⟨String.intercalate "_" (sortStrings ms₁), _, _,
        createOrGetChat_of_absent h2 hdb, h⟩

/-- Witness for C3: two calls with `["b2","a1"]` and then `["a1","b2"]`
against an initially empty collection. -/
theorem createOrGetChat_idempotent_witness :
    ∃ id db₁ ops₁,
      createOrGetChat [] 0 ["b2", "a1"] = (Except.ok id, db₁, ops₁) ∧
      createOrGetChat db₁ 1 ["a1", "b2"] = (Except.ok id, db₁, [DbOp.read id]) :=
  createOrGetChat_idempotent [] 0 1 ["b2", "a1"] ["a1", "b2"] (by decide) (by decide)

/-- C10: every room document written by `createOrGetChat` stores the
lexicographically sorted input member ids in its `members` field, which
is therefore the same array for every permutation of the member set. -/
theorem createOrGetChat_writes_sorted_members
    (db : ChatsDb) (now : Nat) (ms ms' : List String) (hp : ms'.Perm ms)
    (id : String) (d : ChatDoc)
    (hw : DbOp.write id d ∈ (createOrGetChat db now ms).2.2) :
    d.members = sortStrings ms ∧ d.members = sortStrings ms' := by
  by_cases h2 : 2 ≤ ms.length
  · cases hdb : db.lookup (String.intercalate "_" (sortStrings ms)) with
    | some d' =>
        rw [createOrGetChat_of_found now h2 hdb] at hw
        simp at hw
    | none =>
        rw [createOrGetChat_of_absent h2 hdb] at hw
        simp only [List.mem_cons, List.not_mem_nil, or_false, reduceCtorEq,
          false_or, DbOp.write.injEq] at hw
        obtain ⟨-, hd⟩ := hw
        subst hd
        exact ⟨rfl, (sortStrings_eq_of_perm hp).symm⟩
  · rw [createOrGetChat_of_short (by omega)] at hw
    simp at hw

/-- Witness for C10: the document written for `["b2","a1"]` stores
`["a1","b2"]`, the sorted ids of either permutation. -/
theorem createOrGetChat_writes_sorted_members_witness :
    (({ members := ["a1", "b2"], createdAt := 0 } : ChatDoc).members =
        sortStrings ["b2", "a1"] ∧
      ({ members := ["a1", "b2"], createdAt := 0 } : ChatDoc).members =
        sortStrings ["a1", "b2"]) ∧
      sortStrings ["b2", "a1"] = ["a1", "b2"] :=
  ⟨createOrGetChat_writes_sorted_members [] 0 ["b2", "a1"] ["a1", "b2"]
      (by decide) "a1_b2" { members := ["a1", "b2"], createdAt := 0 } (by decide),
    by decide⟩

/-- C5: `sendMessage` appends a message whose `readBy` map holds the
sender's id with the send time, and afterwards the room's `lastMessage`
equals the message text and `lastMessageAt` is the send time. -/
theorem sendMessage_readBy_sender_and_preview
    (room : RoomState) (now : Nat) (p : MessagePayload) :
    ∃ m : MessageDoc,
      (sendMessage room now p).2.messages.getLast? = some m ∧
      m.id = (sendMessage room now p).1 ∧
      m.readBy p.senderId = some now ∧
      (sendMessage room now p).2.lastMessage = some p.text ∧
      (sendMessage room now p).2.lastMessageAt = some now := by
  refine ⟨{ id := "auto" ++ toString room.messages.length
            text := p.text
            senderId := p.senderId
            type := p.type.getD MsgType.text
            attachments := p.attachments.getD []
            readBy := fun u => if u = p.senderId then some now else none
            createdAt := now }, ?_, rfl, by simp, rfl, rfl⟩
  simp [sendMessage]

/-- C8: `markMessageAsRead` sets the `readBy` entry of `uid` to the call
time, is idempotent up to the refreshed timestamp, and changes nothing
else: entries of other users and all other fields are untouched. -/
theorem markMessageAsRead_idempotent
    (m : MessageDoc) (uid : String) (t₁ t₂ : Nat) :
    (markMessageAsRead m uid t₁).readBy uid = some t₁ ∧
      markMessageAsRead (markMessageAsRead m uid t₁) uid t₂ =
        markMessageAsRead m uid t₂ ∧
      (∀ u, u ≠ uid → (markMessageAsRead m uid t₁).readBy u = m.readBy u) ∧
      (markMessageAsRead m uid t₁).id = m.id ∧
      (markMessageAsRead m uid t₁).text = m.text ∧
      (markMessageAsRead m uid t₁).senderId = m.senderId ∧
      (markMessageAsRead m uid t₁).type = m.type ∧
      (markMessageAsRead m uid t₁).attachments = m.attachments ∧
      (markMessageAsRead m uid t₁).createdAt = m.createdAt := by
  refine ⟨by simp [markMessageAsRead], ?_, ?_, rfl, rfl, rfl, rfl, rfl, rfl⟩
  · simp only [markMessageAsRead]
    congr 1
    funext u
    by_cases h : u = uid <;> simp [h]
  · intro u hu
    simp [markMessageAsRead, hu]

/-- Witness for C8: marking `"hi"` read by `"b2"` leaves `"a1"`'s
receipt untouched while recording `"b2"`'s. -/
theorem markMessageAsRead_idempotent_witness :
    (markMessageAsRead (plainMsg "m1" 1) "b2" 5).readBy "b2" = some 5 ∧
      (markMessageAsRead (plainMsg "m1" 1) "b2" 5).readBy "a1" =
        (plainMsg "m1" 1).readBy "a1" :=
  ⟨(markMessageAsRead_idempotent (plainMsg "m1" 1) "b2" 5 6).1,
    (markMessageAsRead_idempotent (plainMsg "m1" 1) "b2" 5 6).2.2.1 "a1" (by decide)⟩

/-- C6: the typing-user list emitted by `useTyping` to a requesting user
never contains that user's own id, even when the requester's typing flag
document is in the snapshot. -/
theorem useTyping_excludes_requester
    (userUid : String) (snapshot : List (String × TypingDoc)) :
    userUid ∉ useTypingEmit userUid snapshot := by
  simp [useTypingEmit, List.mem_filter]

/-- Witness for C6: with both `"a1"` and `"b2"` flagged typing, the
stream requested by `"a1"` emits exactly `["b2"]`. -/
theorem useTyping_excludes_requester_witness :
    "a1" ∉ useTypingEmit "a1" [("a1", ⟨"a1", 3⟩), ("b2", ⟨"b2", 4⟩)] ∧
      useTypingEmit "a1" [("a1", ⟨"a1", 3⟩), ("b2", ⟨"b2", 4⟩)] = ["b2"] :=
  ⟨useTyping_excludes_requester "a1" [("a1", ⟨"a1", 3⟩), ("b2", ⟨"b2", 4⟩)],
    by decide⟩

/-- C7: on an upstream error the rooms subscription emits the empty list
to its callback; the error handler never rethrows, so subscribers only
ever receive a list. -/
theorem getUserChats_error_emits_empty (err : String) :
    getUserChatsEmit (Except.error err) = [] := rfl

/-- C9 counterexample: on the snapshot `[rowMissing, rowZero]` — a room
with no `lastMessageAt` listed before a room whose `lastMessageAt`
resolves to epoch milliseconds `0` — the comparator maps both rooms to
the key `0`, the stable sort keeps their order, and the emitted list
places the missing-timestamp room *before* a room that has one,
contradicting the claim that missing always sorts last. -/
theorem getUserChats_missing_before_present :
    (getUserChatsEmit (Except.ok [rowMissing, rowZero])).map ChatRow.id =
        ["x", "y"] ∧
      rowMissing.lastMessageAt = none ∧
      rowZero.lastMessageAt = some 0 ∧
      ¬ (getUserChatsEmit (Except.ok [rowMissing, rowZero])).Pairwise
          (fun a b => a.lastMessageAt = none → b.lastMessageAt = none) := by
  refine ⟨by decide, rfl, rfl, by decide⟩

/-- C9 (amended): every emitted room list is a permutation of the
snapshot, sorted in descending order of the effective key
`lastMessageAt.toMillis-or-0`; consequently a room whose
`lastMessageAt` is missing is placed after every room whose timestamp
has positive milliseconds (but may tie with, and precede, rooms whose
timestamp is zero or negative). -/
theorem getUserChats_sorted_desc (rows : List ChatRow) :
    (getUserChatsEmit (Except.ok rows)).Pairwise chatDescBefore ∧
      (getUserChatsEmit (Except.ok rows)).Perm rows ∧
      (getUserChatsEmit (Except.ok rows)).Pairwise
        (fun a b => a.lastMessageAt = none → chatSortKey b ≤ 0) := by
  have hs : (sortChats rows).Sorted chatDescBefore :=
    List.sorted_insertionSort _ rows
  refine ⟨hs, List.perm_insertionSort _ rows, ?_⟩
  exact hs.imp fun hab hnone =>
    le_trans hab (le_of_eq (by simp [chatSortKey, hnone]))

/-- C1: evaluation of the `listenMessages` emission at a concrete
overful room.  The query `orderBy('createdAt', 'desc')` +
`limitToLast(2)` keeps the *last* two documents of the descending
order, i.e. the two *oldest* messages: on messages m1, m2, m3 (created
at 1, 2, 3) the listener emits `[m1, m2]` and the most recent message
m3 is not in the window — against the claim (and the spec) that the
window consists of the last (most recent) `windowSize` messages. -/
theorem listenMessages_emits_oldest_window :
    (listenMessagesEmit exampleRoomMsgs 2).map MessageDoc.id = ["m1", "m2"] ∧
      "m3" ∉ (listenMessagesEmit exampleRoomMsgs 2).map MessageDoc.id := by
  refine ⟨by decide, by decide⟩

end Threadly
